import Mathlib

/-!
Verification of the lane-waypoint graph builder in
`PythonAPI/carla/scene_layout.py` (`get_scene_layout`,
`_lateral_shift`, `_get_trigger_volume`).

The external CARLA map/world service is modelled as a record of pure
functions (`MapService`): the topology list, the forward-stepping query
`next`, the geodetic projector `transform_to_geolocation`, and the
forward-vector function of a rotation.  Scalars are rationals; the
geometry functions the service provides are kept abstract, since the
claims do not depend on their numeric values.  Python dictionaries are
modelled as association lists with in-place update on an existing key
and append on a fresh key (`dictInsert`), which reproduces the Python
insertion-order iteration and overwrite semantics; `dget` is `dict.get`.
The unbounded `while` loop of the sampler is given a `fuel` bound,
standing for the finiteness of the physical road network.
-/

namespace SceneLayout

/-- Three-dimensional vector or location, local planar frame. -/
structure Vec3 where
  x : ℚ
  y : ℚ
  z : ℚ
  deriving DecidableEq, Repr

instance : Add Vec3 where
  add a b := ⟨a.x + b.x, a.y + b.y, a.z + b.z⟩

instance : SMul ℚ Vec3 where
  smul c v := ⟨c * v.x, c * v.y, c * v.z⟩

/-- Roll/pitch/yaw orientation (degrees, as in the source). -/
structure Rotation where
  roll : ℚ
  pitch : ℚ
  yaw : ℚ
  deriving DecidableEq, Repr

/-- A pose: position plus orientation. -/
structure Transform where
  location : Vec3
  rotation : Rotation
  deriving DecidableEq, Repr

/-- Geodetic coordinates returned by `transform_to_geolocation`. -/
structure GeoLocation where
  latitude : ℚ
  longitude : ℚ
  altitude : ℚ
  deriving DecidableEq, Repr

/-- A map waypoint: stable id, road id, lane id, pose, lane width. -/
structure Waypoint where
  id : Int
  road_id : Int
  lane_id : Int
  transform : Transform
  lane_width : ℚ
  deriving DecidableEq, Repr

/-- The external map service, as a record of pure functions:
`topology` is `carla_map.get_topology()`, `next step w` is
`w.next(step)`, `geolocation` is `carla_map.transform_to_geolocation`,
and `forward` is `Transform.get_forward_vector` as a function of the
rotation. -/
structure MapService where
  topology : List (Waypoint × Waypoint)
  next : ℚ → Waypoint → List Waypoint
  geolocation : Vec3 → GeoLocation
  forward : Rotation → Vec3

/-- Python dict `d[k] = v`: replace in place when the key is present
(preserving insertion order), append when it is fresh. -/
def dictInsert {β : Type} (k : Int) (v : β) : List (Int × β) → List (Int × β)
  | [] => [(k, v)]
  | (k', v') :: rest => if k' = k then (k', v) :: rest else (k', v') :: dictInsert k v rest

/-- Python dict `d.get(k)`. -/
def dget {β : Type} : List (Int × β) → Int → Option β
  | [], _ => none
  | (k', v) :: rest, k => if k' = k then some v else dget rest k

/-- The fixed sampling step, `precision = 0.05` in the source. -/
def precision : ℚ := 5 / 100

/-- Rotate a heading by +90 degrees of yaw
(`transform.rotation.yaw += 90`). -/
def yawRot90 (r : Rotation) : Rotation :=
  { r with yaw := r.yaw + 90 }

/-- Model of `_lateral_shift(transform, shift)`: the Python function
mutates the yaw of its argument by +90 and then returns
`transform.location + shift * transform.get_forward_vector()`.
We return both the mutated transform and the produced location. -/
def lateral_shift (fwd : Rotation → Vec3) (t : Transform) (shift : ℚ) : Transform × Vec3 :=
  let t2 : Transform := { t with rotation := yawRot90 t.rotation }
  (t2, t.location + shift • fwd t2.rotation)

/-- The location produced by `_lateral_shift(w.transform, shift)`, where
`w.transform` is a fresh immutable copy of the pose of the waypoint. -/
def markingPoint (fwd : Rotation → Vec3) (w : Waypoint) (shift : ℚ) : Vec3 :=
  (lateral_shift fwd w.transform shift).2

/-- Body of the `while` loop of the sampler: while the queried list is nonempty
and its first element is on the road of the seed, append it and query again.
`fuel` bounds the number of iterations (the road network is finite). -/
def sampleLoop (next : ℚ → Waypoint → List Waypoint) (seedRoad : Int) :
    Nat → List Waypoint → List Waypoint
  | 0, _ => []
  | _ + 1, [] => []
  | fuel + 1, w :: _ =>
    if w.road_id = seedRoad then w :: sampleLoop next seedRoad fuel (next precision w)
    else []

/-- Sampled waypoint sequence of one lane: the seed followed by the loop
(`waypoints = [waypoint]; nxt = waypoint.next(precision); while ...`). -/
def sample (next : ℚ → Waypoint → List Waypoint) (fuel : Nat) (seed : Waypoint) :
    List Waypoint :=
  seed :: sampleLoop next seed.road_id fuel (next precision seed)

/-- One entry of `map_dict[road_id][lane_id]`: the waypoint sequence and
its two marking sequences. -/
structure LaneRec where
  waypoints : List Waypoint
  left_marking : List Vec3
  right_marking : List Vec3
  deriving DecidableEq, Repr

/-- Build the `lane` record for one sampled sequence:
`left_marking = [_lateral_shift(w.transform, -w.lane_width * 0.5) for w in waypoints]`,
symmetrically for `right_marking`. -/
def mkLaneRec (fwd : Rotation → Vec3) (ws : List Waypoint) : LaneRec :=
  { waypoints := ws
    left_marking := ws.map fun w => markingPoint fwd w (-(w.lane_width * (1 / 2)))
    right_marking := ws.map fun w => markingPoint fwd w (w.lane_width * (1 / 2)) }

/-- Type of `map_dict`: road id to (lane id to lane record). -/
abbrev MapDict : Type := List (Int × List (Int × LaneRec))

/-- Process one seed of the sorted topology:
sample the lane, build its record, and store it under
`map_dict[seed.road_id][seed.lane_id]`. -/
def addSeed (m : MapService) (fuel : Nat) (md : MapDict) (seed : Waypoint) : MapDict :=
  let lane := mkLaneRec m.forward (sample m.next fuel seed)
  let inner := (dget md seed.road_id).getD []
  dictInsert seed.road_id (dictInsert seed.lane_id lane inner) md

/-- Ordering of seed waypoints used by the builder
(`sorted(topology, key=lambda w: w.transform.location.z)`). -/
def wpLE (a b : Waypoint) : Prop :=
  a.transform.location.z ≤ b.transform.location.z

instance : DecidableRel wpLE := fun a b =>
  inferInstanceAs (Decidable (a.transform.location.z ≤ b.transform.location.z))

instance : IsTotal Waypoint wpLE :=
  ⟨fun a b => le_total a.transform.location.z b.transform.location.z⟩

instance : IsTrans Waypoint wpLE :=
  ⟨fun _ _ _ hab hbc => le_trans hab hbc⟩

/-- Seeds of the build: `topology = [x[0] for x in carla_map.get_topology()]`,
sorted by elevation ascending. -/
def seedsOf (topology : List (Waypoint × Waypoint)) : List Waypoint :=
  List.insertionSort wpLE (topology.map Prod.fst)

/-- The fully built `map_dict`. -/
def mapDictOf (m : MapService) (fuel : Nat) : MapDict :=
  (seedsOf m.topology).foldl (addSeed m fuel) []

/-- Left lane key resolution,
`left_lane_key = lane_key - 1 if lane_key - 1 else lane_key - 2`
(Python truthiness: `lane_key - 1` is falsy exactly when it is 0). -/
def resolve_left (L : Int) : Int :=
  if L - 1 = 0 then L - 2 else L - 1

/-- Right lane key resolution,
`right_lane_key = lane_key + 1 if lane_key + 1 else lane_key + 2`. -/
def resolve_right (L : Int) : Int :=
  if L + 1 = 0 then L + 2 else L + 1

/-- Neighbor waypoint id lookup: `-1` sentinel, overwritten by the id of
the waypoint of the neighbor lane at the same index when the neighbor lane
key is in the road group and the index is in range. -/
def neighborId (inner : List (Int × LaneRec)) (nkey : Int) (i : Nat) : Int :=
  match dget inner nkey with
  | none => -1
  | some lr =>
    match lr.waypoints[i]? with
    | none => -1
    | some w => w.id

/-- The node record `waypoint_dict` emitted into `waypoints_graph`. -/
structure NodeRec where
  road_id : Int
  lane_id : Int
  position : GeoLocation
  orientation : Rotation
  left_margin_position : GeoLocation
  right_margin_position : GeoLocation
  next_waypoints_ids : List Int
  left_lane_waypoint_id : Int
  right_lane_waypoint_id : Int
  deriving DecidableEq, Repr

/-- Build the node record for the waypoint `w` at index `i` of lane
`lane_key` of the road group `inner` (the body of the innermost loop of
the graph build). -/
def mkNode (geo : Vec3 → GeoLocation) (inner : List (Int × LaneRec))
    (road_key lane_key : Int) (lr : LaneRec) (i : Nat) (w : Waypoint) : NodeRec :=
  { road_id := road_key
    lane_id := lane_key
    position := geo w.transform.location
    orientation := w.transform.rotation
    left_margin_position := geo ((lr.left_marking[i]?).getD ⟨0, 0, 0⟩)
    right_margin_position := geo ((lr.right_marking[i]?).getD ⟨0, 0, 0⟩)
    next_waypoints_ids := (lr.waypoints.drop (i + 1)).map Waypoint.id
    left_lane_waypoint_id := neighborId inner (resolve_left lane_key) i
    right_lane_waypoint_id := neighborId inner (resolve_right lane_key) i }

/-- The `(key, node)` pairs emitted for the suffix `ws` of the waypoint
sequence of one lane, starting at index `i`: each waypoint contributes
`waypoints_graph[w.id] = waypoint_dict`. -/
def laneNodesAux (geo : Vec3 → GeoLocation) (inner : List (Int × LaneRec))
    (road_key lane_key : Int) (lr : LaneRec) : Nat → List Waypoint → List (Int × NodeRec)
  | _, [] => []
  | i, w :: ws =>
    (w.id, mkNode geo inner road_key lane_key lr i w) ::
      laneNodesAux geo inner road_key lane_key lr (i + 1) ws

/-- All `(key, node)` pairs emitted for one lane, in index order. -/
def laneNodes (geo : Vec3 → GeoLocation) (inner : List (Int × LaneRec))
    (road_key lane_key : Int) (lr : LaneRec) : List (Int × NodeRec) :=
  laneNodesAux geo inner road_key lane_key lr 0 lr.waypoints

/-- All `(key, node)` pairs emitted over the whole `map_dict`, in
iteration order, before insertion into the graph dictionary. -/
def allNodes (geo : Vec3 → GeoLocation) (md : MapDict) : List (Int × NodeRec) :=
  md.flatMap fun ri => ri.2.flatMap fun li => laneNodes geo ri.2 ri.1 li.1 li.2

/-- Assembly of `waypoints_graph`: the triple loop over roads, lanes, and indices,
inserting each node record into the graph dictionary. -/
def buildGraph (geo : Vec3 → GeoLocation) (md : MapDict) : List (Int × NodeRec) :=
  md.foldl
    (fun g ri =>
      ri.2.foldl
        (fun g li =>
          (laneNodes geo ri.2 ri.1 li.1 li.2).foldl (fun g kv => dictInsert kv.1 kv.2 g) g)
        g)
    []

/-- Model of `get_scene_layout(carla_map)`: sample the sorted topology into
`map_dict`, then assemble the flat waypoint graph. -/
def get_scene_layout (m : MapService) (fuel : Nat) : List (Int × NodeRec) :=
  buildGraph m.geolocation (mapDictOf m fuel)

/-- Model of `_get_trigger_volume(actor)`: the five local corners of the trigger
box (the first corner repeated last to close the polygon), shifted by
the center of the volume, mapped through the actor transform `tf`, then
projected to geodetic coordinates. -/
def get_trigger_volume (geo : Vec3 → GeoLocation) (tf : Vec3 → Vec3)
    (ext : Vec3) (tvloc : Vec3) : List GeoLocation :=
  let corners : List Vec3 :=
    [⟨-ext.x, -ext.y, 0⟩, ⟨ext.x, -ext.y, 0⟩, ⟨ext.x, ext.y, 0⟩, ⟨-ext.x, ext.y, 0⟩,
      ⟨-ext.x, -ext.y, 0⟩]
  let corners := corners.map fun c => c + tvloc
  let corners := corners.map tf
  corners.map geo

/-- The `trigger_volume` field as emitted by `get_stop_signals` /
`get_traffic_lights`: `[[v.longitude, v.latitude, v.altitude] for v in
_get_trigger_volume(actor)]`. -/
def triggerVolumeField (geo : Vec3 → GeoLocation) (tf : Vec3 → Vec3)
    (ext : Vec3) (tvloc : Vec3) : List (List ℚ) :=
  (get_trigger_volume geo tf ext tvloc).map fun v => [v.longitude, v.latitude, v.altitude]

/-! ### Concrete fixtures used to exercise the theorems -/

/-- A concrete seed waypoint on road 0, lane 2. -/
def wA : Waypoint :=
  { id := 10, road_id := 0, lane_id := 2, transform := ⟨⟨0, 0, 0⟩, ⟨0, 0, 0⟩⟩, lane_width := 1 }

/-- A concrete seed waypoint on road 0, lane 1. -/
def wB : Waypoint :=
  { id := 20, road_id := 0, lane_id := 1, transform := ⟨⟨0, 0, 0⟩, ⟨0, 0, 0⟩⟩, lane_width := 1 }

/-- A concrete map service with two adjacent one-waypoint lanes. -/
def svc0 : MapService :=
  { topology := [(wA, wA), (wB, wB)]
    next := fun _ _ => []
    geolocation := fun v => ⟨v.x, v.y, v.z⟩
    forward := fun _ => ⟨1, 0, 0⟩ }

/-- The lane record the builder produces for seed `wA` under `svc0`. -/
def laneA0 : LaneRec := mkLaneRec svc0.forward [wA]

/-- The lane record the builder produces for seed `wB` under `svc0`. -/
def laneB0 : LaneRec := mkLaneRec svc0.forward [wB]

/-- The road group of road 0 under `svc0`. -/
def inner0 : List (Int × LaneRec) := [(2, laneA0), (1, laneB0)]

/-- The node record emitted for `wA` under `svc0`. -/
def nodeA : NodeRec := mkNode svc0.geolocation inner0 0 2 laneA0 0 wA

/-- A waypoint on road 7 whose forward query yields `wD`. -/
def wC : Waypoint :=
  { id := 30, road_id := 7, lane_id := 1, transform := ⟨⟨0, 0, 0⟩, ⟨0, 0, 0⟩⟩, lane_width := 1 }

/-- The waypoint reached one step after `wC`, on the same road. -/
def wD : Waypoint :=
  { id := 40, road_id := 7, lane_id := 1, transform := ⟨⟨0, 0, 1⟩, ⟨0, 0, 0⟩⟩, lane_width := 1 }

/-- A forward query with one step available from `wC` to `wD`. -/
def next1 : ℚ → Waypoint → List Waypoint := fun _ w => if w.id = 30 then [wD] else []

/-- A map service with an empty topology. -/
def svcE : MapService :=
  { topology := []
    next := fun _ _ => []
    geolocation := fun v => ⟨v.x, v.y, v.z⟩
    forward := fun _ => ⟨1, 0, 0⟩ }

/-! ### Helper lemmas -/

/-- Every waypoint appended by the sampling loop passed the road check. -/
theorem sampleLoop_mem_road (next : ℚ → Waypoint → List Waypoint) (r : Int) :
    ∀ (fuel : Nat) (nxt : List Waypoint), ∀ w ∈ sampleLoop next r fuel nxt, w.road_id = r := by
  intro fuel
  induction fuel with
  | zero => intro nxt w hw; simp [sampleLoop] at hw
  | succ n ih =>
    intro nxt w hw
    cases nxt with
    | nil => simp [sampleLoop] at hw
    | cons a t =>
      by_cases ha : a.road_id = r
      · rw [sampleLoop, if_pos ha] at hw
        rcases List.mem_cons.mp hw with rfl | hw
        · exact ha
        · exact ih _ w hw
      · rw [sampleLoop, if_neg ha] at hw
        simp at hw

/-- The sampling loop run on an empty query result produces nothing. -/
theorem sampleLoop_nil (next : ℚ → Waypoint → List Waypoint) (r : Int) (fuel : Nat) :
    sampleLoop next r fuel [] = [] := by
  cases fuel <;> rfl

/-- The sampling loop stops without appending at a road change. -/
theorem sampleLoop_stop (next : ℚ → Waypoint → List Waypoint) (r : Int) (fuel : Nat)
    (w : Waypoint) (t : List Waypoint) (hw : w.road_id ≠ r) :
    sampleLoop next r fuel (w :: t) = [] := by
  cases fuel with
  | zero => rfl
  | succ n => rw [sampleLoop, if_neg hw]

/-! ### Claim theorems -/

/-- C1: for every seed, the sampled sequence begins with the seed; every
element has the road identity of the seed; if the first forward query at
step `precision` is empty, or its first candidate is on a different
road, the sequence has length exactly 1 (a lane shorter than
`precision`); and when the first candidate exists on the same road it is
appended as the second element. -/
theorem sample_walk_spec (next : ℚ → Waypoint → List Waypoint) (fuel : Nat) (seed : Waypoint) :
    (sample next fuel seed).head? = some seed
    ∧ (∀ w ∈ sample next fuel seed, w.road_id = seed.road_id)
    ∧ ((next precision seed).head? = none → (sample next fuel seed).length = 1)
    ∧ (∀ w, (next precision seed).head? = some w → w.road_id ≠ seed.road_id →
        (sample next fuel seed).length = 1)
    ∧ (∀ w, (next precision seed).head? = some w → w.road_id = seed.road_id →
        (sample next (fuel + 1) seed)[1]? = some w) := by
  refine ⟨rfl, ?_, ?_, ?_, ?_⟩
  · intro w hw
    rcases List.mem_cons.mp hw with rfl | hw
    · rfl
    · exact sampleLoop_mem_road next seed.road_id fuel _ w hw
  · intro h
    rw [List.head?_eq_none_iff] at h
    simp [sample, h, sampleLoop_nil]
  · intro w hw hroad
    cases hnxt : next precision seed with
    | nil => simp [hnxt] at hw
    | cons a t =>
      rw [hnxt] at hw
      injection hw with hw
      subst hw
      simp [sample, hnxt, sampleLoop_stop next seed.road_id fuel a t hroad]
  · intro w hw hroad
    cases hnxt : next precision seed with
    | nil => simp [hnxt] at hw
    | cons a t =>
      rw [hnxt] at hw
      injection hw with hw
      subst hw
      simp [sample, hnxt, sampleLoop, if_pos hroad]

/-- Witness for C1: with no forward steps the sequence is the seed
alone; with one same-road step available the next waypoint is appended
as the second element. -/
theorem sample_walk_spec_witness :
    (sample (fun _ _ => ([] : List Waypoint)) 5 wA).length = 1
    ∧ (sample next1 (4 + 1) wC)[1]? = some wD :=
  ⟨(sample_walk_spec (fun _ _ => []) 5 wA).2.2.1 (by decide),
   (sample_walk_spec next1 4 wC).2.2.2.2 wD (by decide) (by decide)⟩

/-- C2: the resolved left neighbor lane identity is `L-1` unless that is
0 (then `L-2`), the resolved right neighbor is `L+1` unless that is 0
(then `L+2`), with the four concrete instances from the spec. -/
theorem resolve_skip_zero :
    (∀ L : Int, resolve_left L = if L - 1 = 0 then L - 2 else L - 1)
    ∧ (∀ L : Int, resolve_right L = if L + 1 = 0 then L + 2 else L + 1)
    ∧ resolve_left 1 = -1 ∧ resolve_left (-1) = -2
    ∧ resolve_right (-1) = 1 ∧ resolve_right 2 = 3 :=
  ⟨fun _ => rfl, fun _ => rfl, by decide, by decide, by decide, by decide⟩

/-- C8: an empty topology yields an empty graph. -/
theorem empty_topology_graph (m : MapService) (fuel : Nat) (h : m.topology = []) :
    get_scene_layout m fuel = [] := by
  obtain ⟨topo, nx, geo, fw⟩ := m
  subst h
  rfl

/-- Witness for C8: the builder on the concrete empty-topology service. -/
theorem empty_topology_graph_witness : get_scene_layout svcE 3 = [] :=
  empty_topology_graph svcE 3 rfl

/-- C9: the build is deterministic and idempotent — two runs against the
same unchanged map service give equal graphs — and the seed iteration
order is the topology seeds sorted by elevation ascending (a sorted
permutation of the seed list). -/
theorem build_deterministic (m : MapService) (fuel : Nat) :
    get_scene_layout m fuel = get_scene_layout m fuel
    ∧ List.Sorted wpLE (seedsOf m.topology)
    ∧ (seedsOf m.topology).Perm (m.topology.map Prod.fst) :=
  ⟨rfl, List.sorted_insertionSort wpLE _, List.perm_insertionSort wpLE _⟩

/-- C10: the emitted trigger-volume field has exactly 5 entries, its
first entry is the projection of the local corner `(-x, -y)` shifted and
transformed, and its last entry equals its first (closed polygon). -/
theorem trigger_volume_closed (geo : Vec3 → GeoLocation) (tf : Vec3 → Vec3)
    (ext tvloc : Vec3) :
    (triggerVolumeField geo tf ext tvloc).length = 5
    ∧ (triggerVolumeField geo tf ext tvloc).head?
        = some [(geo (tf (Vec3.mk (-ext.x) (-ext.y) 0 + tvloc))).longitude,
                (geo (tf (Vec3.mk (-ext.x) (-ext.y) 0 + tvloc))).latitude,
                (geo (tf (Vec3.mk (-ext.x) (-ext.y) 0 + tvloc))).altitude]
    ∧ (triggerVolumeField geo tf ext tvloc).getLast?
        = (triggerVolumeField geo tf ext tvloc).head? :=
  ⟨rfl, rfl, rfl⟩

/-- C6: the marking computation is pure with respect to the waypoint
pose — the stored waypoint at index `i` is unchanged — and the right
marking at index `i` is the lateral shift of the original pose by
`+width/2` (rotate the original heading by +90 degrees, translate by
`offset • forward`), even though the left marking was computed first
from the same pose; the left marking likewise uses `-width/2`. -/
theorem lateral_shift_pure (fwd : Rotation → Vec3) (ws : List Waypoint) (i : Nat)
    (w : Waypoint) (h : ws[i]? = some w) :
    (mkLaneRec fwd ws).waypoints[i]? = some w
    ∧ (mkLaneRec fwd ws).right_marking[i]?
        = some (w.transform.location
            + (w.lane_width * (1 / 2)) • fwd (yawRot90 w.transform.rotation))
    ∧ (mkLaneRec fwd ws).left_marking[i]?
        = some (w.transform.location
            + (-(w.lane_width * (1 / 2))) • fwd (yawRot90 w.transform.rotation)) := by
  refine ⟨h, ?_, ?_⟩ <;>
    simp [mkLaneRec, List.getElem?_map, h, markingPoint, lateral_shift]

/-- Witness for C6: the one-waypoint lane of `wA`. -/
theorem lateral_shift_pure_witness :
    (mkLaneRec svc0.forward [wA]).waypoints[0]? = some wA
    ∧ (mkLaneRec svc0.forward [wA]).right_marking[0]?
        = some (wA.transform.location
            + (wA.lane_width * (1 / 2)) • svc0.forward (yawRot90 wA.transform.rotation))
    ∧ (mkLaneRec svc0.forward [wA]).left_marking[0]?
        = some (wA.transform.location
            + (-(wA.lane_width * (1 / 2))) • svc0.forward (yawRot90 wA.transform.rotation)) :=
  lateral_shift_pure svc0.forward [wA] 0 wA (by decide)

/-- C4: the successor list of the node emitted at index `i` is the ids
of the full remaining tail of the lane sequence, its length is the
sequence length minus one minus `i`, and the node of the last waypoint
has an empty successor list. -/
theorem node_successors_tail (geo : Vec3 → GeoLocation) (inner : List (Int × LaneRec))
    (road_key lane_key : Int) (lr : LaneRec) (i : Nat) (w : Waypoint) :
    (mkNode geo inner road_key lane_key lr i w).next_waypoints_ids
      = (lr.waypoints.drop (i + 1)).map Waypoint.id
    ∧ (mkNode geo inner road_key lane_key lr i w).next_waypoints_ids.length
      = lr.waypoints.length - 1 - i
    ∧ (i + 1 = lr.waypoints.length →
        (mkNode geo inner road_key lane_key lr i w).next_waypoints_ids = []) := by
  refine ⟨rfl, ?_, ?_⟩
  · simp [mkNode, Nat.sub_sub, Nat.add_comm]
  · intro h
    simp [mkNode, h, List.drop_length]

/-- Witness for C4: the single (hence last) waypoint of lane `laneA0`
has an empty successor list. -/
theorem node_successors_tail_witness :
    (mkNode svc0.geolocation inner0 0 2 laneA0 0 wA).next_waypoints_ids = [] :=
  (node_successors_tail svc0.geolocation inner0 0 2 laneA0 0 wA).2.2 (by decide)

/-- C3: the left (right) neighbor waypoint id of an emitted node equals
the id of the element at the same index of the resolved neighbor lane
when that lane key is present in the road group and the index is in
range; when the resolved lane key is absent, or the index is out of
range, it is the sentinel `-1` (no error in either case: `mkNode` is
total). -/
theorem node_neighbor_ids (geo : Vec3 → GeoLocation) (inner : List (Int × LaneRec))
    (road_key lane_key : Int) (lr : LaneRec) (i : Nat) (w : Waypoint) :
    (∀ lr2, dget inner (resolve_left lane_key) = some lr2 →
      ∀ w2, lr2.waypoints[i]? = some w2 →
        (mkNode geo inner road_key lane_key lr i w).left_lane_waypoint_id = w2.id)
    ∧ (dget inner (resolve_left lane_key) = none →
        (mkNode geo inner road_key lane_key lr i w).left_lane_waypoint_id = -1)
    ∧ (∀ lr2, dget inner (resolve_left lane_key) = some lr2 → lr2.waypoints.length ≤ i →
        (mkNode geo inner road_key lane_key lr i w).left_lane_waypoint_id = -1)
    ∧ (∀ lr2, dget inner (resolve_right lane_key) = some lr2 →
      ∀ w2, lr2.waypoints[i]? = some w2 →
        (mkNode geo inner road_key lane_key lr i w).right_lane_waypoint_id = w2.id)
    ∧ (dget inner (resolve_right lane_key) = none →
        (mkNode geo inner road_key lane_key lr i w).right_lane_waypoint_id = -1)
    ∧ (∀ lr2, dget inner (resolve_right lane_key) = some lr2 → lr2.waypoints.length ≤ i →
        (mkNode geo inner road_key lane_key lr i w).right_lane_waypoint_id = -1) := by
  refine ⟨?_, ?_, ?_, ?_, ?_, ?_⟩
  · intro lr2 hd w2 hw2
    simp [mkNode, neighborId, hd, hw2]
  · intro hd
    simp [mkNode, neighborId, hd]
  · intro lr2 hd hlen
    simp [mkNode, neighborId, hd, List.getElem?_eq_none hlen]
  · intro lr2 hd w2 hw2
    simp [mkNode, neighborId, hd, hw2]
  · intro hd
    simp [mkNode, neighborId, hd]
  · intro lr2 hd hlen
    simp [mkNode, neighborId, hd, List.getElem?_eq_none hlen]

/-- Witness for C3: in road group `inner0`, lane 2 at index 0 resolves
its left neighbor (lane 1) to the id of `wB`, and its right neighbor
(lane 3, absent) to the sentinel `-1`. -/
theorem node_neighbor_ids_witness :
    (mkNode svc0.geolocation inner0 0 2 laneA0 0 wA).left_lane_waypoint_id = wB.id
    ∧ (mkNode svc0.geolocation inner0 0 2 laneA0 0 wA).right_lane_waypoint_id = -1 :=
  ⟨(node_neighbor_ids svc0.geolocation inner0 0 2 laneA0 0 wA).1 laneB0 rfl wB rfl,
   (node_neighbor_ids svc0.geolocation inner0 0 2 laneA0 0 wA).2.2.2.2.1 rfl⟩

/-- Membership after a dict insert: the new pair or an old one. -/
theorem mem_dictInsert {β : Type} {k a : Int} {v b : β} {l : List (Int × β)}
    (h : (a, b) ∈ dictInsert k v l) : (a = k ∧ b = v) ∨ (a, b) ∈ l := by
  induction l with
  | nil =>
    simp [dictInsert] at h
    exact Or.inl h
  | cons p rest ih =>
    obtain ⟨k0, v0⟩ := p
    by_cases hk : k0 = k
    · rw [dictInsert, if_pos hk] at h
      rcases List.mem_cons.mp h with heq | hmem
      · injection heq with h1 h2
        exact Or.inl ⟨h1.trans hk, h2⟩
      · exact Or.inr (List.mem_cons_of_mem _ hmem)
    · rw [dictInsert, if_neg hk] at h
      rcases List.mem_cons.mp h with heq | hmem
      · exact Or.inr (heq ▸ List.mem_cons_self _ _)
      · rcases ih hmem with hnew | hold
        · exact Or.inl hnew
        · exact Or.inr (List.mem_cons_of_mem _ hold)

/-- A successful dict lookup comes from an entry of the list. -/
theorem dget_mem {β : Type} : ∀ {l : List (Int × β)} {k : Int} {v : β},
    dget l k = some v → (k, v) ∈ l := by
  intro l
  induction l with
  | nil => intro k v h; simp [dget] at h
  | cons p rest ih =>
    intro k v h
    obtain ⟨k0, v0⟩ := p
    by_cases hk : k0 = k
    · rw [dget, if_pos hk] at h
      injection h with h
      exact hk ▸ h ▸ List.mem_cons_self _ _
    · rw [dget, if_neg hk] at h
      exact List.mem_cons_of_mem _ (ih h)

/-- With pairwise distinct keys, lookup finds each stored entry. -/
theorem dget_of_mem_nodup {β : Type} : ∀ {l : List (Int × β)},
    (l.map Prod.fst).Nodup → ∀ {k : Int} {v : β}, (k, v) ∈ l → dget l k = some v := by
  intro l
  induction l with
  | nil => intro _ k v h; simp at h
  | cons p rest ih =>
    intro hnd k v h
    obtain ⟨k0, v0⟩ := p
    simp only [List.map_cons, List.nodup_cons] at hnd
    rcases List.mem_cons.mp h with heq | hmem
    · injection heq with h1 h2
      rw [dget, if_pos h1.symm]
      rw [h2]
    · have hk : k0 ≠ k := by
        intro hkk
        exact hnd.1 (hkk ▸ (List.mem_map.mpr ⟨(k, v), hmem, rfl⟩))
      rw [dget, if_neg hk]
      exact ih hnd.2 hmem

/-- Inserting a fresh key appends the pair at the end. -/
theorem dictInsert_append {β : Type} {k : Int} {l : List (Int × β)}
    (h : k ∉ l.map Prod.fst) (v : β) : dictInsert k v l = l ++ [(k, v)] := by
  induction l with
  | nil => rfl
  | cons p rest ih =>
    obtain ⟨k0, v0⟩ := p
    simp only [List.map_cons, List.mem_cons] at h
    push_neg at h
    rw [dictInsert, if_neg (fun he => h.1 he.symm), ih h.2]
    rfl

/-- Every lane record stored in the built `map_dict` is the marking
record of some sampled sequence. -/
theorem mapDict_lane_records (m : MapService) (fuel : Nat) :
    ∀ ri ∈ mapDictOf m fuel, ∀ li ∈ ri.2, ∃ ws, li.2 = mkLaneRec m.forward ws := by
  suffices H : ∀ (seeds : List Waypoint) (acc : MapDict),
      (∀ ri ∈ acc, ∀ li ∈ ri.2, ∃ ws, li.2 = mkLaneRec m.forward ws) →
      ∀ ri ∈ seeds.foldl (addSeed m fuel) acc, ∀ li ∈ ri.2,
        ∃ ws, li.2 = mkLaneRec m.forward ws by
    intro ri hri
    exact H (seedsOf m.topology) [] (by simp) ri hri
  intro seeds
  induction seeds with
  | nil => intro acc hacc; simpa using hacc
  | cons s rest ih =>
    intro acc hacc
    rw [List.foldl_cons]
    apply ih
    intro ri hri li hli
    obtain ⟨rk, inner⟩ := ri
    rcases mem_dictInsert hri with ⟨hrk, hinner⟩ | hold
    · subst hinner
      obtain ⟨lk, lr⟩ := li
      rcases mem_dictInsert hli with ⟨hlk, hlr⟩ | holdlane
      · exact ⟨sample m.next fuel s, hlr⟩
      · cases hd : dget acc s.road_id with
        | none => rw [hd] at holdlane; simp at holdlane
        | some inner1 =>
          rw [hd] at holdlane
          exact hacc (s.road_id, inner1) (dget_mem hd) (lk, lr) holdlane
    · exact hacc (rk, inner) hold li hli

/-- C5: in every lane record built by the builder, the three sequences
have equal length, and the left and right markings at every index `i`
are the lateral shifts computed from the waypoint at index `i`. -/
theorem lane_record_aligned (m : MapService) (fuel : Nat) :
    ∀ ri ∈ mapDictOf m fuel, ∀ li ∈ ri.2,
      (li.2.left_marking.length = li.2.waypoints.length
        ∧ li.2.right_marking.length = li.2.waypoints.length)
      ∧ ∀ (i : Nat) (w : Waypoint), li.2.waypoints[i]? = some w →
          li.2.left_marking[i]? = some (markingPoint m.forward w (-(w.lane_width * (1 / 2))))
          ∧ li.2.right_marking[i]? = some (markingPoint m.forward w (w.lane_width * (1 / 2))) := by
  intro ri hri li hli
  obtain ⟨ws, hws⟩ := mapDict_lane_records m fuel ri hri li hli
  rw [hws]
  refine ⟨⟨by simp [mkLaneRec], by simp [mkLaneRec]⟩, ?_⟩
  intro i w hi
  rw [mkLaneRec] at hi
  simp only at hi
  constructor <;> simp [mkLaneRec, List.getElem?_map, hi]

/-- Witness for C5: the lane record of lane 2 of road 0 under `svc0`. -/
theorem lane_record_aligned_witness :
    ((laneA0.left_marking.length = laneA0.waypoints.length
        ∧ laneA0.right_marking.length = laneA0.waypoints.length)
      ∧ ∀ (i : Nat) (w : Waypoint), laneA0.waypoints[i]? = some w →
          laneA0.left_marking[i]? = some (markingPoint svc0.forward w (-(w.lane_width * (1 / 2))))
          ∧ laneA0.right_marking[i]? = some (markingPoint svc0.forward w (w.lane_width * (1 / 2)))) :=
  lane_record_aligned svc0 5 (0, inner0) (List.Mem.head _) (2, laneA0) (List.Mem.head _)

/-- Characterization of the pairs emitted for a lane suffix. -/
theorem laneNodesAux_mem_iff (geo : Vec3 → GeoLocation) (inner : List (Int × LaneRec))
    (rk lk : Int) (lr : LaneRec) :
    ∀ (ws : List Waypoint) (i : Nat) (p : Int × NodeRec),
      p ∈ laneNodesAux geo inner rk lk lr i ws ↔
        ∃ j w, ws[j]? = some w ∧ p = (w.id, mkNode geo inner rk lk lr (i + j) w) := by
  intro ws
  induction ws with
  | nil => intro i p; simp [laneNodesAux]
  | cons w0 rest ih =>
    intro i p
    rw [laneNodesAux]
    constructor
    · intro hp
      rcases List.mem_cons.mp hp with rfl | hp
      · exact ⟨0, w0, by simp, by simp⟩
      · obtain ⟨j, w, hj, hpp⟩ := (ih (i + 1) p).mp hp
        refine ⟨j + 1, w, by simpa using hj, ?_⟩
        have harith : i + 1 + j = i + (j + 1) := by omega
        rw [hpp, harith]
    · rintro ⟨j, w, hj, rfl⟩
      cases j with
      | zero =>
        simp only [List.getElem?_cons_zero, Option.some.injEq] at hj
        subst hj
        simp
      | succ j2 =>
        apply List.mem_cons_of_mem
        refine (ih (i + 1) _).mpr ⟨j2, w, by simpa using hj, ?_⟩
        have harith : i + 1 + j2 = i + (j2 + 1) := by omega
        rw [harith]

/-- Each in-range index of a lane contributes its pair to `laneNodes`. -/
theorem mem_laneNodes_of_getElem (geo : Vec3 → GeoLocation) (inner : List (Int × LaneRec))
    (rk lk : Int) (lr : LaneRec) {j : Nat} {w : Waypoint}
    (hj : lr.waypoints[j]? = some w) :
    (w.id, mkNode geo inner rk lk lr j w) ∈ laneNodes geo inner rk lk lr := by
  rw [laneNodes, laneNodesAux_mem_iff]
  exact ⟨j, w, hj, by simp⟩

/-- Membership in the flat list of emitted pairs. -/
theorem mem_allNodes_iff (geo : Vec3 → GeoLocation) (md : MapDict) (p : Int × NodeRec) :
    p ∈ allNodes geo md ↔
      ∃ ri ∈ md, ∃ li ∈ ri.2, p ∈ laneNodes geo ri.2 ri.1 li.1 li.2 := by
  simp [allNodes, List.mem_flatMap]

/-- Folding dict inserts of pairwise-fresh keys appends the pairs. -/
theorem foldl_insert_append {β : Type} :
    ∀ (l acc : List (Int × β)), ((acc ++ l).map Prod.fst).Nodup →
      l.foldl (fun g kv => dictInsert kv.1 kv.2 g) acc = acc ++ l := by
  intro l
  induction l with
  | nil => intro acc _; simp
  | cons kv rest ih =>
    intro acc h
    obtain ⟨k, v⟩ := kv
    have hk : k ∉ acc.map Prod.fst := by
      rw [List.map_append, List.nodup_append] at h
      intro hmem
      exact h.2.2 hmem (by simp)
    have h2 : (((acc ++ [(k, v)]) ++ rest).map Prod.fst).Nodup := by
      simpa [List.append_assoc] using h
    rw [List.foldl_cons, dictInsert_append hk, ih _ h2, List.append_assoc]
    rfl

/-- Folding the per-element insert loops of a list of blocks appends the
concatenation of the blocks, when all keys are pairwise distinct. -/
theorem foldl_blocks_append {α : Type} (f : α → List (Int × NodeRec)) :
    ∀ (xs : List α) (acc : List (Int × NodeRec)),
      ((acc ++ xs.flatMap f).map Prod.fst).Nodup →
      xs.foldl (fun g x => (f x).foldl (fun g kv => dictInsert kv.1 kv.2 g) g) acc
        = acc ++ xs.flatMap f := by
  intro xs
  induction xs with
  | nil => intro acc _; simp
  | cons x rest ih =>
    intro acc h
    have hflat : acc ++ (x :: rest).flatMap f = (acc ++ f x) ++ rest.flatMap f := by
      rw [List.flatMap_cons, List.append_assoc]
    rw [hflat] at h
    have h1 : ((acc ++ f x).map Prod.fst).Nodup :=
      ((List.sublist_append_left (acc ++ f x) (rest.flatMap f)).map Prod.fst).nodup h
    rw [List.foldl_cons, foldl_insert_append (f x) acc h1, ih _ h]
    exact hflat.symm

/-- When all emitted waypoint ids are pairwise distinct (the upstream
uniqueness contract of the map service), the assembled graph dictionary
is exactly the flat list of emitted pairs, in emission order. -/
theorem buildGraph_eq_allNodes (geo : Vec3 → GeoLocation) :
    ∀ (md : MapDict) (acc : List (Int × NodeRec)),
      ((acc ++ allNodes geo md).map Prod.fst).Nodup →
      md.foldl
        (fun g ri =>
          ri.2.foldl
            (fun g li =>
              (laneNodes geo ri.2 ri.1 li.1 li.2).foldl (fun g kv => dictInsert kv.1 kv.2 g) g)
            g)
        acc
        = acc ++ allNodes geo md := by
  intro md
  induction md with
  | nil => intro acc _; simp [allNodes]
  | cons ri rest ih =>
    intro acc h
    have hflat : acc ++ allNodes geo (ri :: rest)
        = (acc ++ ri.2.flatMap (fun li => laneNodes geo ri.2 ri.1 li.1 li.2))
            ++ allNodes geo rest := by
      rw [allNodes, List.flatMap_cons, ← List.append_assoc]
      rfl
    rw [hflat] at h
    have h1 : ((acc ++ ri.2.flatMap (fun li => laneNodes geo ri.2 ri.1 li.1 li.2)).map
        Prod.fst).Nodup :=
      ((List.sublist_append_left _ (allNodes geo rest)).map Prod.fst).nodup h
    rw [List.foldl_cons,
      foldl_blocks_append (fun li => laneNodes geo ri.2 ri.1 li.1 li.2) ri.2 acc h1,
      ih _ h]
    exact hflat.symm

/-- The graph produced by the builder, as a plain list of pairs. -/
theorem get_scene_layout_eq_allNodes (m : MapService) (fuel : Nat)
    (H : ((allNodes m.geolocation (mapDictOf m fuel)).map Prod.fst).Nodup) :
    get_scene_layout m fuel = allNodes m.geolocation (mapDictOf m fuel) := by
  rw [get_scene_layout, buildGraph]
  exact buildGraph_eq_allNodes m.geolocation (mapDictOf m fuel) [] (by simpa using H)

/-- C7: under the upstream contract that emitted waypoint ids are
pairwise distinct, every node of the output graph whose left neighbor
waypoint id is not the sentinel `-1` references a key that is present in
the graph, and the node stored under that key lies on the resolved
left-neighbor lane of the referring node. -/
theorem graph_left_neighbor_consistent (m : MapService) (fuel : Nat)
    (H : ((allNodes m.geolocation (mapDictOf m fuel)).map Prod.fst).Nodup) :
    ∀ k node, (k, node) ∈ get_scene_layout m fuel →
      node.left_lane_waypoint_id ≠ -1 →
      ∃ node2,
        dget (get_scene_layout m fuel) node.left_lane_waypoint_id = some node2
        ∧ node2.lane_id = resolve_left node.lane_id := by
  intro k node hmem hne
  have hg := get_scene_layout_eq_allNodes m fuel H
  rw [hg] at hmem ⊢
  rw [mem_allNodes_iff] at hmem
  obtain ⟨ri, hri, li, hli, hp⟩ := hmem
  rw [laneNodes, laneNodesAux_mem_iff] at hp
  obtain ⟨j, w, hj, hpair⟩ := hp
  simp only [Nat.zero_add] at hpair
  have hnode : node = mkNode m.geolocation ri.2 ri.1 li.1 li.2 j w :=
    congrArg Prod.snd hpair
  have hL : node.left_lane_waypoint_id = neighborId ri.2 (resolve_left li.1) j := by
    rw [hnode]; rfl
  cases hd : dget ri.2 (resolve_left li.1) with
  | none =>
    exact absurd (by rw [hL]; simp [neighborId, hd]) hne
  | some lr2 =>
    cases hw2 : lr2.waypoints[j]? with
    | none =>
      exact absurd (by rw [hL]; simp [neighborId, hd, hw2]) hne
    | some w2 =>
      have hid : node.left_lane_waypoint_id = w2.id := by
        rw [hL]; simp [neighborId, hd, hw2]
      have hmem2 : (w2.id, mkNode m.geolocation ri.2 ri.1 (resolve_left li.1) lr2 j w2)
          ∈ allNodes m.geolocation (mapDictOf m fuel) := by
        rw [mem_allNodes_iff]
        exact ⟨ri, hri, (resolve_left li.1, lr2), dget_mem hd,
          mem_laneNodes_of_getElem m.geolocation ri.2 ri.1 (resolve_left li.1) lr2 hw2⟩
      refine ⟨mkNode m.geolocation ri.2 ri.1 (resolve_left li.1) lr2 j w2, ?_, ?_⟩
      · rw [hid]
        exact dget_of_mem_nodup H hmem2
      · rw [hnode]
        rfl

/-- Witness for C7: in the two-lane fixture, the node of `wA` (lane 2)
references the node of `wB`, which is stored in the graph with lane id
`resolve_left 2 = 1`. -/
theorem graph_left_neighbor_consistent_witness :
    ∃ node2,
      dget (get_scene_layout svc0 5) nodeA.left_lane_waypoint_id = some node2
      ∧ node2.lane_id = resolve_left nodeA.lane_id :=
  graph_left_neighbor_consistent svc0 5 (by decide) 10 nodeA (List.Mem.head _) (by decide)
